import Mathlib

/-!
Shallow embedding of the Google Sheets / Google Calendar synchronizer
(source file `part_000`, the Apps Script version with the twelve-column
sheet layout, plus the older `main.js` import mapper).

The embedding models the reconciliation engine as pure functions from
typed sheet rows and a repository lookup to the list of repository
calls the script would issue.  External collaborators are modeled per
their documented contracts:
  * `CalendarApp.getCalendarById` yields `null` (here `none`) for a
    missing, empty or unknown calendar id; a member call on `null`
    throws a `TypeError`.
  * A fetched `CalendarEvent` is modeled by exactly the getters the
    update path invokes: `getTitle`, `getDescription`, `getColor`,
    `getGuestList` (emails), `getMyStatus`, `getLocation`.  The event
    times are absent from the model because `UpdateEvent` never reads
    them back (it only writes them).
  * Timestamps are integers (milliseconds); `setDate(getDate() + 1)`
    is modeled as adding one day's worth of milliseconds together with
    incrementing the day-of-month field (month rollover and DST are
    not modeled; the day-of-month of a derived date is never inspected
    by the embedded code).
  * `getColor` is modeled as returning the integer color id that the
    repository stores (spec section 6 contract `colorId`).
-/

/-- Milliseconds in one day; `nextDay.setDate(nextDay.getDate() + 1)` on a
timed value adds this amount in a DST-free model. -/
def oneDay : Int := 86400000

/-- A JavaScript `Date` as used by the reconciler: its numeric value in
milliseconds plus the day-of-month that `getDate()` would report.  The
day-of-month is only ever read on raw record start/end cells (line 220 of
the source); derived dates never have it inspected. -/
structure JsDate where
  ms : Int
  dom : Int
deriving DecidableEq

/-- Models `var nextDay = new Date(d); nextDay.setDate(nextDay.getDate() + 1)`
(source lines 231-232 and 274-275): same time of day, one calendar day
later. -/
def jsNextDay (d : JsDate) : JsDate := ⟨d.ms + oneDay, d.dom + 1⟩

/-- `CalendarApp.GuestStatus` values that the string switch at source lines
139-155 can produce. -/
inductive GuestStatus where
  | owner
  | invited
  | yes
  | no
  | maybe
deriving DecidableEq

/-- The `switch (myStatusStr)` at source lines 139-155: any string other
than the five listed cases leaves the JavaScript variable `myStatus`
undefined, modeled as `none`. -/
def parseMyStatus (s : String) : Option GuestStatus :=
  match s with
  | "OWNER" => some .owner
  | "INVITED" => some .invited
  | "YES" => some .yes
  | "NO" => some .no
  | "MAYBE" => some .maybe
  | _ => none

/-- JavaScript single-character `String.split(sep)` on a character list:
`"".split(',')` yields `[""]`, never the empty list. -/
def splitCharList (sep : Char) : List Char → List (List Char)
  | [] => [[]]
  | c :: cs =>
    if c = sep then [] :: splitCharList sep cs
    else
      match splitCharList sep cs with
      | [] => [[c]]
      | h :: t => (c :: h) :: t

/-- `s.split(sep)` for a one-character separator (source line 132 uses
`event[7].split(',')`, line 74 uses `event.getId().split('@')`). -/
def splitOnChar (sep : Char) (s : String) : List String :=
  (splitCharList sep s.data).map String.mk

/-- ASCII whitespace as trimmed by JavaScript `String.trim()` (the model
restricts the Unicode whitespace class to the ASCII members that can occur
in the sheet data). -/
def isJsSpace (c : Char) : Bool :=
  c = ' ' || c = '\t' || c = '\n' || c = '\r'

/-- JavaScript `String.trim()`: strip whitespace from both ends. -/
def trimString (s : String) : String :=
  String.mk (((s.data.dropWhile isJsSpace).reverse.dropWhile isJsSpace).reverse)

/-- Helper for the regex `\([^)]*\)`: drop everything up to and including
the first `')'`, or `none` when no `')'` follows. -/
def dropThroughClose : List Char → Option (List Char)
  | [] => none
  | c :: cs => if c = ')' then some cs else dropThroughClose cs

/-- One application of `.replace(/\([^)]*\)/, "")` (source lines 243, 244,
248): remove the first parenthesized run; when the first `'('` has no
closing `')'` anywhere after it the regex cannot match at any position and
the string is unchanged. -/
def removeParen : List Char → List Char
  | [] => []
  | c :: cs =>
    if c = '(' then
      match dropThroughClose cs with
      | some rest => rest
      | none => c :: cs
    else c :: removeParen cs

/-- `guest.replace(/\([^)]*\)/, "").trim()` — the guest-status stripping
applied to every raw guest entry before comparison. -/
def stripStatus (s : String) : String :=
  trimString (String.mk (removeParen s.data))

/-- JavaScript `Array.join(',')` (source line 282). -/
def joinComma : List String → String
  | [] => ""
  | [s] => s
  | s :: rest => s ++ "," ++ joinComma rest

/-- `Math.trunc` applied to a value that the model already holds as an
integer (source line 238). -/
def mathTrunc (z : Int) : Int := z

/-- The creation payload handed to `createEvent` / `createAllDayEvent`
(source lines 279-292): title, start, end and the options object
`{description, location, guests: guests.join(','), sendInvites}`. -/
structure CreatePayload where
  eventTitle : String
  startMs : Int
  endMs : Int
  description : String
  location : String
  guests : String
  sendInvites : Bool
deriving DecidableEq

/-- One observable repository interaction: every `CalendarApp` mutation or
lookup the reconciler can issue.  The local property assignment
`event.sendInvites = sendInvites` (source line 256) is not a repository
call and therefore has no constructor here. -/
inductive RepoCall where
  | setTitle (t : String)
  | setAllDayDates (s e : Int)
  | setAllDayDate (s : Int)
  | setTime (s e : Int)
  | setDescription (d : String)
  | setColor (c : Int)
  | addGuest (email : String)
  | removeGuest (email : String)
  | setMyStatus (st : Option GuestStatus)
  | setLocation (l : String)
  | createEvent (p : CreatePayload)
  | createAllDayEvent (p : CreatePayload)
  | getEventById (id : String)
  | deleteEvent (id : String)
deriving DecidableEq

/-- A fetched calendar event as observed by `UpdateEvent`: exactly the
getters invoked at source lines 217, 237, 238, 241, 254, 255.  Times are
absent because the update path never reads them (it writes them blindly,
lines 219-235). -/
structure RepoEvent where
  title : String
  description : String
  color : Int
  guestEmails : List String
  myStatus : Option GuestStatus
  location : String
deriving DecidableEq

/-- The argument tuple of `UpdateEvent` / `CreateEvent` as assembled by
`CreateOrUpdateEvents` (source lines 125-155). -/
structure EventArgs where
  isAllDay : Bool
  eventID : String
  eventTitle : String
  startTime : JsDate
  endTime : JsDate
  description : String
  color : Int
  guests : List String
  myStatus : Option GuestStatus
  location : String
  sendInvites : Bool
deriving DecidableEq

/-- The unconditional time write of `UpdateEvent` (source lines 219-235):
all-day events use `setAllDayDates` when `startTime < endTime &&
startTime.getDate() < endTime.getDate()` and `setAllDayDate` otherwise;
timed events use `setTime` with the end replaced by `start + 1 day` when
the end is not after the start.  No getter guards any of these calls. -/
def timeCall (a : EventArgs) : RepoCall :=
  if a.isAllDay then
    if a.startTime.ms < a.endTime.ms ∧ a.startTime.dom < a.endTime.dom then
      .setAllDayDates a.startTime.ms a.endTime.ms
    else
      .setAllDayDate a.startTime.ms
  else
    if a.startTime.ms < a.endTime.ms then
      .setTime a.startTime.ms a.endTime.ms
    else
      .setTime a.startTime.ms (jsNextDay a.startTime).ms

/-- Stripped guest entries that are to be added (source lines 242-246):
each raw entry whose stripped email is not already in the calendar guest
list snapshot. -/
def addEmails (gs cur : List String) : List String :=
  (gs.filter (fun g => !(cur.contains (stripStatus g)))).map stripStatus

/-- Calendar guest emails that are to be removed (source lines 247-251):
each snapshot email matched by no stripped desired entry. -/
def remEmails (gs cur : List String) : List String :=
  cur.filter (fun e => !(gs.any (fun v => stripStatus v == e)))

/-- The `addGuest` calls of the guest block. -/
def guestAddCalls (gs cur : List String) : List RepoCall :=
  (addEmails gs cur).map RepoCall.addGuest

/-- The `removeGuest` calls of the guest block. -/
def guestRemoveCalls (gs cur : List String) : List RepoCall :=
  (remEmails gs cur).map RepoCall.removeGuest

/-- The whole guest block of `UpdateEvent` (source lines 240-252), guarded
by `guests.length > 0 && guests[0] !== ''` on the raw (untrimmed,
unstripped) entries. -/
def guestCalls (gs cur : List String) : List RepoCall :=
  match gs with
  | [] => []
  | g :: _ =>
    if g = "" then []
    else guestAddCalls gs cur ++ guestRemoveCalls gs cur

/-- The title write, issued only when the fetched title differs (source
line 217). -/
def titleCallOf (a : EventArgs) (ev : RepoEvent) : List RepoCall :=
  if ev.title ≠ a.eventTitle then [.setTitle a.eventTitle] else []

/-- The description write, issued only on a difference (source line 237). -/
def descrCallOf (a : EventArgs) (ev : RepoEvent) : List RepoCall :=
  if ev.description ≠ a.description then [.setDescription a.description] else []

/-- The color write, issued only when `event.getColor() !== Math.trunc(color)`
(source line 238). -/
def colorCallOf (a : EventArgs) (ev : RepoEvent) : List RepoCall :=
  if ev.color ≠ mathTrunc a.color then [.setColor (mathTrunc a.color)] else []

/-- The status write, issued only on a difference (source line 254). -/
def statusCallOf (a : EventArgs) (ev : RepoEvent) : List RepoCall :=
  if ev.myStatus ≠ a.myStatus then [.setMyStatus a.myStatus] else []

/-- The location write, issued only on a difference (source line 255). -/
def locationCallOf (a : EventArgs) (ev : RepoEvent) : List RepoCall :=
  if ev.location ≠ a.location then [.setLocation a.location] else []

/-- The mutation calls `UpdateEvent` issues against an existing event
(source lines 216-258), in source order: conditional title, unconditional
time write, conditional description, conditional color, the guarded guest
block, conditional status, conditional location.  Line 256
(`event.sendInvites = sendInvites`) assigns a plain JavaScript property on
the local wrapper object and line 257 (`isAllDay = isAllDay`) is a no-op;
neither produces a repository call. -/
def updateFieldCalls (a : EventArgs) (ev : RepoEvent) : List RepoCall :=
  titleCallOf a ev ++ [timeCall a] ++ descrCallOf a ev ++ colorCallOf a ev
    ++ guestCalls a.guests ev.guestEmails ++ statusCallOf a ev ++ locationCallOf a ev

/-- The creation payload built by `CreateEvent` (source lines 271-292):
`endDate = startTime < endTime ? endTime : nextDay` with
`nextDay = startTime + 1 day`. -/
def createPayload (a : EventArgs) : CreatePayload :=
  { eventTitle := a.eventTitle
    startMs := a.startTime.ms
    endMs := (if a.startTime.ms < a.endTime.ms then a.endTime else jsNextDay a.startTime).ms
    description := a.description
    location := a.location
    guests := joinComma a.guests
    sendInvites := a.sendInvites }

/-- `CreateEvent` (source lines 271-294): one `createAllDayEvent` or
`createEvent` call with the payload, followed by the `setColor` follow-up
call (line 293, which uses the raw `color` argument without `Math.trunc`). -/
def CreateEvent (a : EventArgs) : List RepoCall :=
  (if a.isAllDay then [RepoCall.createAllDayEvent (createPayload a)]
   else [RepoCall.createEvent (createPayload a)]) ++ [RepoCall.setColor a.color]

/-- `UpdateEvent` (source lines 211-266) after the `getEventById` lookup:
if the repository returned an event, diff-and-write its fields; if the
lookup returned `null`, fall through to `CreateEvent` (line 260). -/
def UpdateEvent (a : EventArgs) (fetched : Option RepoEvent) : List RepoCall :=
  match fetched with
  | some ev => updateFieldCalls a ev
  | none => CreateEvent a

/-- Errors the embedded JavaScript can throw; only the `TypeError` of a
member access on `null` occurs in the modeled paths. -/
inductive JsError where
  | typeError
deriving DecidableEq

/-- `DeleteEvent` (source lines 202-206): `calendar.getEventById(id)
.deleteEvent()`.  The lookup is always forwarded to the repository; when
it yields `null` (no event has the given id — in particular the empty id)
the member call `.deleteEvent()` throws a `TypeError`.  There is no
validation of the id and no try/catch in `DeleteEvent` or its caller. -/
def DeleteEvent (id : String) (repo : String → Option RepoEvent) :
    List RepoCall × Option JsError :=
  match repo id with
  | some _ => ([.getEventById id, .deleteEvent id], none)
  | none => ([.getEventById id], some .typeError)

/-- One sheet row as read by `CreateOrUpdateEvents` from range `A2:L1000`
(source lines 125-136), already carrying the JavaScript truthiness of the
boolean-ish cells. -/
structure SheetRow where
  id : String
  title : String
  startTime : JsDate
  endTime : JsDate
  isAllDay : Bool
  description : String
  color : Int
  guestsStr : String
  myStatusStr : String
  location : String
  sendInvites : Bool
  deleteOpt : Bool
deriving DecidableEq

/-- Argument assembly of `CreateOrUpdateEvents` (source lines 125-155):
`color = event[6] > 0 ? event[6] : 8`, `guests = event[7].split(',')`,
`myStatus` via the string switch. -/
def argsOfRow (r : SheetRow) : EventArgs :=
  { isAllDay := r.isAllDay
    eventID := r.id
    eventTitle := r.title
    startTime := r.startTime
    endTime := r.endTime
    description := r.description
    color := if r.color > 0 then r.color else 8
    guests := splitOnChar ',' r.guestsStr
    myStatus := parseMyStatus r.myStatusStr
    location := r.location
    sendInvites := r.sendInvites }

/-- The per-record dispatch of `CreateOrUpdateEvents` (source lines
157-180).  The skip guard at line 157 starts with `eventID == undefined`,
which is false for every sheet-derived cell (`getValues` yields `''` for a
blank cell, never `undefined`), so the `&&` chain short-circuits before it
would read the undeclared variable `guestsStr`; the guard is therefore
never taken.  `deleteOpt` truthy dispatches to `DeleteEvent`; otherwise a
non-empty id dispatches to `UpdateEvent` (preceded by its `getEventById`
lookup, line 215) and an empty id to `CreateEvent` — identically in the
all-day and timed branches (lines 165-179). -/
def processRecord (r : SheetRow) (repo : String → Option RepoEvent) :
    List RepoCall × Option JsError :=
  if r.deleteOpt then DeleteEvent r.id repo
  else if r.id ≠ "" then
    (RepoCall.getEventById r.id :: UpdateEvent (argsOfRow r) (repo r.id), none)
  else
    (CreateEvent (argsOfRow r), none)

/-- `Math.min(...array)` over the start timestamps: the empty spread gives
`Infinity` and `new Date(Infinity)` is an Invalid Date, modeled `none`. -/
def jsMinList : List Int → Option Int
  | [] => none
  | x :: xs => some (xs.foldl min x)

/-- `Math.max(...array)`: the empty spread gives `-Infinity`, again an
Invalid Date after `new Date`, modeled `none`. -/
def jsMaxList : List Int → Option Int
  | [] => none
  | x :: xs => some (xs.foldl max x)

/-- `GetStartEndDates` (source lines 190-197): both bounds come from
`events.map(ev => ev[2])`, the start timestamps; the variable named
`maxEndTimestamp` is in fact the maximum of the starts.  The `end` cells
are never consulted. -/
def GetStartEndDates (events : List SheetRow) : Option Int × Option Int :=
  (jsMinList (events.map (fun ev => ev.startTime.ms)),
   jsMaxList (events.map (fun ev => ev.startTime.ms)))

/-- The window handed to `AddEventsToSheet` (source lines 182-184): the
derived start bound unchanged and the derived end bound advanced by one
day (`nextDay.setDate(nextDay.getDate() + 1)`; on an Invalid Date the
result stays invalid). -/
def reimportWindow (batch : List SheetRow) : Option Int × Option Int :=
  ((GetStartEndDates batch).1, (GetStartEndDates batch).2.map (fun m => m + oneDay))

/-- The observable outcome of one `CreateOrUpdateEvents` pass: the calls
and error of each processed record, and the window of the `AddEventsToSheet`
invocation, which happens unconditionally at line 184 (there is no guard
for an empty batch, so the fields below are always populated — `none`
bounds mean the call received Invalid Dates). -/
structure SyncRun where
  perRecord : List (List RepoCall × Option JsError)
  reimportStart : Option Int
  reimportEnd : Option Int
deriving DecidableEq

/-- `CreateOrUpdateEvents` after the calendar-id guard (source lines
115-185): filter out rows with a blank title cell (`value[1] != ''`),
derive the window from the filtered batch, process every record, and
invoke the re-import with the window — unconditionally. -/
def CreateOrUpdateEvents (rows : List SheetRow) (repo : String → Option RepoEvent) :
    SyncRun :=
  let filtered := rows.filter (fun r => r.title != "")
  { perRecord := filtered.map (fun r => processRecord r repo)
    reimportStart := (reimportWindow filtered).1
    reimportEnd := (reimportWindow filtered).2 }

/-- Repository state transition of one mutation call, for the fields the
update path can observe.  `addGuest` is a no-op when the email is already
a guest; `removeGuest` removes the guest with that email.  The time writes
(`setTime`, `setAllDayDate`, `setAllDayDates`) change only event times,
which are not part of the observable state because `UpdateEvent` never
reads them; create/lookup/delete calls do not mutate an existing fetched
event. -/
def applyCall (ev : RepoEvent) (c : RepoCall) : RepoEvent :=
  match c with
  | .setTitle t => { ev with title := t }
  | .setDescription d => { ev with description := d }
  | .setColor c' => { ev with color := c' }
  | .setLocation l => { ev with location := l }
  | .setMyStatus s => { ev with myStatus := s }
  | .addGuest e =>
    if ev.guestEmails.contains e then ev
    else { ev with guestEmails := ev.guestEmails ++ [e] }
  | .removeGuest e => { ev with guestEmails := ev.guestEmails.filter (fun x => x ≠ e) }
  | _ => ev

/-- Apply a sequence of calls in order. -/
def applyCalls (ev : RepoEvent) (cs : List RepoCall) : RepoEvent :=
  cs.foldl applyCall ev

/-- The guest-list evolution under a sequence of `addGuest` calls. -/
def applyAdds (cur : List String) (es : List String) : List String :=
  es.foldl (fun l e => if l.contains e then l else l ++ [e]) cur

/-- The guest-list evolution under a sequence of `removeGuest` calls. -/
def applyRems (cur : List String) (rs : List String) : List String :=
  rs.foldl (fun l e => l.filter (fun x => x ≠ e)) cur

/-- The calendar guest list after the guest block of one update run. -/
def postGuestEmails (gs cur : List String) : List String :=
  match gs with
  | [] => cur
  | g :: _ =>
    if g = "" then cur
    else applyRems (applyAdds cur (addEmails gs cur)) (remEmails gs cur)

/-- Result of evaluating `CalendarIdExists` (source lines 365-372), which
begins by building the settings object: line 22 computes
`CalendarApp.getCalendarById(CALID).getTimeZone()` eagerly.  When the
stored `CALID` property is `null` (never set, or deleted by
`ShowAddCalendarId`), or names no calendar (in particular the empty
string), `getCalendarById` yields `null` and the member call throws — so
evaluation can crash before the id check runs. -/
inductive GuardResult where
  | crashed (e : JsError)
  | missingId
  | ok
deriving DecidableEq

/-- The `defaultTimeZone` computation of `GetSettings` (source line 22),
parameterized by the stored `CALID` user property and by which calendar
ids exist.  `some e` means the expression threw. -/
def getSettingsCheck (calIdProp : Option String) (calExists : String → Bool) :
    Option JsError :=
  match calIdProp with
  | none => some .typeError
  | some cid => if calExists cid then none else some .typeError

/-- `CalendarIdExists` (source lines 365-372): it first calls
`GetSettings` (which may throw at line 22), then reports `missingId`
(the `DisplayError` branch with the configuration message) when the id is
`null` or empty, and `ok` otherwise. -/
def CalendarIdExists (calIdProp : Option String) (calExists : String → Bool) :
    GuardResult :=
  match getSettingsCheck calIdProp calExists with
  | some e => .crashed e
  | none =>
    match calIdProp with
    | none => .missingId
    | some cid => if cid = "" then .missingId else .ok

/-- Observable outcome of a menu entry point. -/
inductive EntryOutcome where
  | crashed (e : JsError)
  | configErrorShown
  | ran (run : SyncRun)
  | dialogShown
deriving DecidableEq

/-- The `Update Calendar` entry point `CreateOrUpdateEvents` (source line
116): `if (!CalendarIdExists()) return;` then the sync pass.  An uncaught
throw inside `CalendarIdExists`/`GetSettings` propagates. -/
def UpdateCalendarEntry (calIdProp : Option String) (calExists : String → Bool)
    (rows : List SheetRow) (repo : String → Option RepoEvent) : EntryOutcome :=
  match CalendarIdExists calIdProp calExists with
  | .crashed e => .crashed e
  | .missingId => .configErrorShown
  | .ok => .ran (CreateOrUpdateEvents rows repo)

/-- The `Import Events` entry point `FetchCalendarEvents` (source lines
52-57): the same guard, then the date-selection dialog. -/
def FetchCalendarEventsEntry (calIdProp : Option String)
    (calExists : String → Bool) : EntryOutcome :=
  match CalendarIdExists calIdProp calExists with
  | .crashed e => .crashed e
  | .missingId => .configErrorShown
  | .ok => .dialogShown

/-- A spreadsheet cell value as written by `setValues` / read by
`getValues`. -/
inductive CellValue where
  | str (s : String)
  | num (z : Int)
  | boolV (b : Bool)
  | dateV (ms : Int)
deriving DecidableEq

/-- JavaScript truthiness of a cell value (`if (deleteOpt)`,
`if (sendInvites)`): the empty string and zero are falsy, every other
string — including the text `"false"` — is truthy. -/
def jsTruthy : CellValue → Bool
  | .str s => s != ""
  | .num z => z != 0
  | .boolV b => b
  | .dateV _ => true

/-- A calendar event as read by the import mapper `AddEventsToSheet`
(source lines 73-85): the getters invoked there.  `getColor` is pushed to
the sheet verbatim, so it is kept in its string form here. -/
structure CalEvent where
  id : String
  title : String
  startMs : Int
  endMs : Int
  isAllDay : Bool
  description : String
  color : String
  guests : List (String × String)
  myStatus : String
  location : String
deriving DecidableEq

/-- `event.getId().split('@')[0]` (source line 74). -/
def idBeforeAt (s : String) : String :=
  String.mk (s.data.takeWhile (fun c => c ≠ '@'))

/-- Lower-case a string character-wise (`.toLowerCase()` on the ASCII
status names). -/
def lowerString (s : String) : String :=
  String.mk (s.data.map Char.toLower)

/-- JavaScript `Array.join(', ')`. -/
def joinCommaSpace : List String → String
  | [] => ""
  | [s] => s
  | s :: rest => s ++ ", " ++ joinCommaSpace rest

/-- Guest list rendering of the import mapper (source line 81):
`"email (status)"` entries joined by `", "`. -/
def renderGuests (gs : List (String × String)) : String :=
  joinCommaSpace (gs.map (fun g => g.1 ++ " (" ++ lowerString g.2 ++ ")"))

/-- The row pushed for one event by `AddEventsToSheet` (source lines
74-85): eleven cells — id, title, start, end, isAllDay, description,
color, guests, myStatus, location, and the delete placeholder, which is
the string literal `'false'` (line 84).  There is no sendInvites cell, so
this row is one column narrower than the `A2:L1000` layout that
`CreateOrUpdateEvents` reads (id..location, sendInvites at index 10,
deleteOpt at index 11). -/
def AddEventsToSheetRow (ev : CalEvent) : List CellValue :=
  [ .str (idBeforeAt ev.id), .str ev.title, .dateV ev.startMs, .dateV ev.endMs,
    .boolV ev.isAllDay, .str ev.description, .str ev.color,
    .str (renderGuests ev.guests), .str ev.myStatus, .str ev.location,
    .str "false" ]

/-- Reading cell `i` of a written row on the next pass: `getValues` over
`A2:L1000` always yields twelve cells per row, with `''` for every cell
the import did not write (`ClearSheet` at line 89 blanks the previous
content and `setValues` at line 90 only fills eleven columns). -/
def readCell (row : List CellValue) (i : Nat) : CellValue :=
  row.getD i (.str "")

/-- The `deleteOpt` cell the reconciler reads (`event[11]`, source line
136), as a truthiness test (line 159). -/
def readDeleteOpt (row : List CellValue) : Bool :=
  jsTruthy (readCell row 11)

/-- The `sendInvites` cell the reconciler reads (`event[10]`, source line
135), as a truthiness test. -/
def readSendInvites (row : List CellValue) : Bool :=
  jsTruthy (readCell row 10)

/-- A concrete update-path argument tuple for counterexamples: a timed
event whose sheet row is free of guests (empty guest cell splits to
`[""]`, so the guest block is skipped). -/
def cexArgs : EventArgs :=
  { isAllDay := false
    eventID := "ev1"
    eventTitle := "t"
    startTime := ⟨0, 1⟩
    endTime := ⟨3600000, 1⟩
    description := "d"
    color := 8
    guests := splitOnChar ',' ""
    myStatus := some .owner
    location := "loc"
    sendInvites := false }

/-- A repository event already agreeing with `cexArgs` on every field the
update path compares. -/
def cexRepoEvent : RepoEvent :=
  { title := "t"
    description := "d"
    color := 8
    guestEmails := []
    myStatus := some .owner
    location := "loc" }

/-- A sheet row whose start is 2024-01-03T00:00:00Z. -/
def rowJan3 : SheetRow :=
  { id := "", title := "a", startTime := ⟨1704240000000, 3⟩,
    endTime := ⟨1704243600000, 3⟩, isAllDay := false, description := "",
    color := 0, guestsStr := "", myStatusStr := "", location := "",
    sendInvites := false, deleteOpt := false }

/-- A sheet row whose start is 2024-01-05T00:00:00Z. -/
def rowJan5 : SheetRow :=
  { rowJan3 with startTime := ⟨1704412800000, 5⟩, endTime := ⟨1704416400000, 5⟩ }

/-- A sheet row whose start is 2024-01-10T00:00:00Z. -/
def rowJan10 : SheetRow :=
  { rowJan3 with startTime := ⟨1704844800000, 10⟩, endTime := ⟨1704848400000, 10⟩ }

/-- A row carrying an id that the repository no longer knows (for the
self-healing witness). -/
def rowWithId : SheetRow :=
  { id := "abc123", title := "Meet", startTime := ⟨0, 1⟩,
    endTime := ⟨3600000, 1⟩, isAllDay := false, description := "d",
    color := 0, guestsStr := "", myStatusStr := "YES", location := "room",
    sendInvites := true, deleteOpt := false }

/-- A row without an id whose end cell (2024-02-01T19:00Z) lies before its
start cell (2024-02-01T20:00Z), for the end-normalization witness. -/
def rowNoId : SheetRow :=
  { rowWithId with
    id := "", startTime := ⟨1706817600000, 1⟩,
    endTime := ⟨1706814000000, 1⟩ }

/-- A row whose title cell is blank: `CreateOrUpdateEvents` filters it
out, leaving an empty batch. -/
def blankRow : SheetRow :=
  { rowJan3 with title := "" }

/-- A row flagged for deletion that has no id. -/
def delRow : SheetRow :=
  { rowJan3 with title := "x", deleteOpt := true }

/-- A repository in which no event exists. -/
def emptyRepo : String → Option RepoEvent := fun _ => none

/-- A concrete imported calendar event for the import-mapper
counterexample. -/
def sampleCalEvent : CalEvent :=
  { id := "abc@google.com", title := "Meeting", startMs := 0,
    endMs := 3600000, isAllDay := false, description := "", color := "8",
    guests := [("a@x.com", "INVITED")], myStatus := "OWNER", location := "" }

/-- Classifier: a creation call (`createEvent` or `createAllDayEvent`). -/
def isCreateCall : RepoCall → Bool
  | .createEvent _ => true
  | .createAllDayEvent _ => true
  | _ => false

/-- Classifier: the field mutations of the update path — everything except
creation, the `setColor` follow-up that the create path itself issues at
source line 293, and the read-only `getEventById` lookup. -/
def isNonCreateMutation : RepoCall → Bool
  | .setTitle _ => true
  | .setAllDayDates _ _ => true
  | .setAllDayDate _ => true
  | .setTime _ _ => true
  | .setDescription _ => true
  | .addGuest _ => true
  | .removeGuest _ => true
  | .setMyStatus _ => true
  | .setLocation _ => true
  | .deleteEvent _ => true
  | _ => false

theorem foldl_min_mem : ∀ (xs : List Int) (x : Int), xs.foldl min x ∈ x :: xs
  | [], _ => by simp
  | y :: ys, x => by
    have h := foldl_min_mem ys (min x y)
    have hstep : List.foldl min x (y :: ys) = List.foldl min (min x y) ys := rfl
    rw [hstep]
    rcases List.mem_cons.mp h with h1 | h1
    · rcases min_choice x y with h2 | h2
      · rw [h1, h2]; exact List.mem_cons_self _ _
      · rw [h1, h2]; exact List.mem_cons_of_mem _ (List.mem_cons_self _ _)
    · exact List.mem_cons_of_mem _ (List.mem_cons_of_mem _ h1)

theorem foldl_min_le : ∀ (xs : List Int) (x y : Int), y ∈ x :: xs → xs.foldl min x ≤ y
  | [], x, y, h => by
    have : y = x := by simpa using h
    simp [this]
  | z :: zs, x, y, h => by
    have hstep : List.foldl min x (z :: zs) = List.foldl min (min x z) zs := rfl
    rw [hstep]
    have hself := foldl_min_le zs (min x z) (min x z) (List.mem_cons_self _ _)
    rcases List.mem_cons.mp h with h1 | h1
    · exact h1 ▸ hself.trans (min_le_left _ _)
    · rcases List.mem_cons.mp h1 with h2 | h2
      · exact h2 ▸ hself.trans (min_le_right _ _)
      · exact foldl_min_le zs (min x z) y (List.mem_cons_of_mem _ h2)

theorem foldl_max_mem : ∀ (xs : List Int) (x : Int), xs.foldl max x ∈ x :: xs
  | [], _ => by simp
  | y :: ys, x => by
    have h := foldl_max_mem ys (max x y)
    have hstep : List.foldl max x (y :: ys) = List.foldl max (max x y) ys := rfl
    rw [hstep]
    rcases List.mem_cons.mp h with h1 | h1
    · rcases max_choice x y with h2 | h2
      · rw [h1, h2]; exact List.mem_cons_self _ _
      · rw [h1, h2]; exact List.mem_cons_of_mem _ (List.mem_cons_self _ _)
    · exact List.mem_cons_of_mem _ (List.mem_cons_of_mem _ h1)

theorem foldl_le_max : ∀ (xs : List Int) (x y : Int), y ∈ x :: xs → y ≤ xs.foldl max x
  | [], x, y, h => by
    have : y = x := by simpa using h
    simp [this]
  | z :: zs, x, y, h => by
    have hstep : List.foldl max x (z :: zs) = List.foldl max (max x z) zs := rfl
    rw [hstep]
    have hself := foldl_le_max zs (max x z) (max x z) (List.mem_cons_self _ _)
    rcases List.mem_cons.mp h with h1 | h1
    · subst h1; exact (le_max_left _ _).trans hself
    · rcases List.mem_cons.mp h1 with h2 | h2
      · subst h2; exact (le_max_right _ _).trans hself
      · exact foldl_le_max zs (max x z) y (List.mem_cons_of_mem _ h2)

/-- C2: for every non-empty batch, the re-import window handed to
`AddEventsToSheet` is `[minStart, maxStart + 1 day)`: its start bound is
the least start timestamp of the batch and its end bound is the greatest
start timestamp plus one day, and the window is a function of the start
timestamps alone — batches with the same start lists get the same window,
so the end cells are never consulted. -/
theorem rangeDerivationMinMaxPlusOneDay (rows : List SheetRow) (h : rows ≠ []) :
    ∃ m M : Int,
      reimportWindow rows = (some m, some (M + oneDay)) ∧
      m ∈ rows.map (fun r => r.startTime.ms) ∧
      M ∈ rows.map (fun r => r.startTime.ms) ∧
      (∀ s ∈ rows.map (fun r => r.startTime.ms), m ≤ s ∧ s ≤ M) ∧
      (∀ rows' : List SheetRow,
        rows'.map (fun r => r.startTime.ms) = rows.map (fun r => r.startTime.ms) →
        reimportWindow rows' = reimportWindow rows) := by
  cases rows with
  | nil => exact absurd rfl h
  | cons r rs =>
    refine ⟨(rs.map (fun q => q.startTime.ms)).foldl min r.startTime.ms,
            (rs.map (fun q => q.startTime.ms)).foldl max r.startTime.ms,
            ?_, ?_, ?_, ?_, ?_⟩
    · rfl
    · exact foldl_min_mem _ _
    · exact foldl_max_mem _ _
    · intro s hs
      exact ⟨foldl_min_le _ _ _ hs, foldl_le_max _ _ _ hs⟩
    · intro rows' hmap
      unfold reimportWindow GetStartEndDates
      rw [hmap]

/-- Witness: the spec's example batch with starts 2024-01-05, 2024-01-10
and 2024-01-03 satisfies the range theorem, and its window evaluates to
`[2024-01-03T00:00Z, 2024-01-11T00:00Z)`. -/
theorem rangeDerivationWitness :
    (∃ m M : Int,
      reimportWindow [rowJan5, rowJan10, rowJan3] = (some m, some (M + oneDay)) ∧
      m ∈ [rowJan5, rowJan10, rowJan3].map (fun r => r.startTime.ms) ∧
      M ∈ [rowJan5, rowJan10, rowJan3].map (fun r => r.startTime.ms) ∧
      (∀ s ∈ [rowJan5, rowJan10, rowJan3].map (fun r => r.startTime.ms),
        m ≤ s ∧ s ≤ M) ∧
      (∀ rows' : List SheetRow,
        rows'.map (fun r => r.startTime.ms)
          = [rowJan5, rowJan10, rowJan3].map (fun r => r.startTime.ms) →
        reimportWindow rows' = reimportWindow [rowJan5, rowJan10, rowJan3])) ∧
    reimportWindow [rowJan5, rowJan10, rowJan3]
      = (some 1704240000000, some 1704931200000) :=
  ⟨rangeDerivationMinMaxPlusOneDay _ (by decide), by decide⟩

theorem mem_addEmails (gs cur : List String) (e : String) :
    e ∈ addEmails gs cur ↔ e ∉ cur ∧ ∃ g ∈ gs, stripStatus g = e := by
  unfold addEmails
  simp only [List.mem_map, List.mem_filter]
  constructor
  · rintro ⟨a, ⟨ha, hc⟩, rfl⟩
    refine ⟨?_, a, ha, rfl⟩
    simpa using hc
  · rintro ⟨hc, a, ha, rfl⟩
    exact ⟨a, ⟨ha, by simpa using hc⟩, rfl⟩

theorem mem_remEmails (gs cur : List String) (e : String) :
    e ∈ remEmails gs cur ↔ e ∈ cur ∧ ∀ g ∈ gs, stripStatus g ≠ e := by
  unfold remEmails
  simp only [List.mem_filter, Bool.not_eq_true', List.any_eq_false, beq_eq_false_iff_ne]
  simp

theorem mem_guestAddCalls (gs cur : List String) (e : String) :
    RepoCall.addGuest e ∈ guestAddCalls gs cur ↔ e ∈ addEmails gs cur := by
  unfold guestAddCalls
  simp

theorem addGuest_not_mem_guestRemoveCalls (gs cur : List String) (e : String) :
    RepoCall.addGuest e ∉ guestRemoveCalls gs cur := by
  unfold guestRemoveCalls
  simp

theorem mem_guestRemoveCalls (gs cur : List String) (e : String) :
    RepoCall.removeGuest e ∈ guestRemoveCalls gs cur ↔ e ∈ remEmails gs cur := by
  unfold guestRemoveCalls
  simp

theorem removeGuest_not_mem_guestAddCalls (gs cur : List String) (e : String) :
    RepoCall.removeGuest e ∉ guestAddCalls gs cur := by
  unfold guestAddCalls
  simp

/-- C5 (amended): the guest block short-circuits exactly when the raw
comma-split guest list is empty or its first raw entry is the empty
string — before trimming or status stripping.  When the first raw entry is
non-empty, an `addGuest e` call is issued precisely for the stripped
desired emails `e` absent from the current repository emails, and a
`removeGuest e` call precisely for the current emails matched by no
stripped desired entry. -/
theorem guestDiffCharacterization (gs cur : List String) :
    ((gs = [] ∨ gs.head? = some "") → guestCalls gs cur = []) ∧
    (∀ e, RepoCall.addGuest e ∈ guestCalls gs cur ↔
      (gs ≠ [] ∧ gs.head? ≠ some "") ∧ e ∉ cur ∧ ∃ g ∈ gs, stripStatus g = e) ∧
    (∀ e, RepoCall.removeGuest e ∈ guestCalls gs cur ↔
      (gs ≠ [] ∧ gs.head? ≠ some "") ∧ e ∈ cur ∧ ∀ g ∈ gs, stripStatus g ≠ e) := by
  cases gs with
  | nil =>
    refine ⟨fun _ => rfl, ?_, ?_⟩ <;> intro e <;> simp [guestCalls]
  | cons g rest =>
    by_cases hg : g = ""
    · subst hg
      refine ⟨fun _ => rfl, ?_, ?_⟩ <;> intro e <;> simp [guestCalls]
    · refine ⟨?_, ?_, ?_⟩
      · intro h
        rcases h with h | h
        · exact absurd h (by simp)
        · simp only [List.head?_cons, Option.some.injEq] at h
          exact absurd h hg
      · intro e
        simp only [guestCalls, if_neg hg, List.mem_append,
          mem_guestAddCalls, mem_addEmails]
        constructor
        · intro h
          rcases h with h | h
          · exact ⟨⟨by simp, by simp [hg]⟩, h⟩
          · exact absurd h (addGuest_not_mem_guestRemoveCalls _ _ _)
        · intro h
          exact Or.inl h.2
      · intro e
        simp only [guestCalls, if_neg hg, List.mem_append,
          mem_guestRemoveCalls, mem_remEmails]
        constructor
        · intro h
          rcases h with h | h
          · exact absurd h (removeGuest_not_mem_guestAddCalls _ _ _)
          · exact ⟨⟨by simp, by simp [hg]⟩, h⟩
        · intro h
          exact Or.inr h.2

/-- Counterexample to C5 as stated: the guest cell `" "` parses to the
raw list `[" "]`, whose trimmed, status-stripped desired list is the
single blank string `[""]` — for which the claim demands that no guest
call occur — yet the guard tests the raw entry `" " !== ''`, proceeds,
and issues `addGuest ""` against an empty current guest list. -/
theorem guestDiffBlankEntryCounterexample :
    (splitOnChar ',' " ").map stripStatus = [""] ∧
    guestCalls (splitOnChar ',' " ") [] = [RepoCall.addGuest ""] := by
  constructor <;> decide

/-- Witness for the guest-diff characterization at the spec's example:
desired parsed from `"a@x.com, b@x.com"` against current
`{b@x.com, c@x.com}` adds exactly `a@x.com` and removes exactly
`c@x.com`. -/
theorem guestDiffCharacterizationWitness :
    RepoCall.addGuest "a@x.com"
        ∈ guestCalls (splitOnChar ',' "a@x.com, b@x.com") ["b@x.com", "c@x.com"] ∧
    RepoCall.removeGuest "c@x.com"
        ∈ guestCalls (splitOnChar ',' "a@x.com, b@x.com") ["b@x.com", "c@x.com"] ∧
    RepoCall.addGuest "b@x.com"
        ∉ guestCalls (splitOnChar ',' "a@x.com, b@x.com") ["b@x.com", "c@x.com"] ∧
    RepoCall.removeGuest "b@x.com"
        ∉ guestCalls (splitOnChar ',' "a@x.com, b@x.com") ["b@x.com", "c@x.com"] := by
  obtain ⟨-, hadd, hrem⟩ :=
    guestDiffCharacterization (splitOnChar ',' "a@x.com, b@x.com")
      ["b@x.com", "c@x.com"]
  refine ⟨(hadd "a@x.com").mpr (by decide), (hrem "c@x.com").mpr (by decide),
    fun hm => ?_, fun hm => ?_⟩
  · exact absurd ((hadd "b@x.com").mp hm) (by decide)
  · exact absurd ((hrem "b@x.com").mp hm) (by decide)

theorem applyCalls_append (ev : RepoEvent) (l1 l2 : List RepoCall) :
    applyCalls ev (l1 ++ l2) = applyCalls (applyCalls ev l1) l2 :=
  List.foldl_append _ _ _ _

theorem applyAdds_cons (cur : List String) (e : String) (es : List String) :
    applyAdds cur (e :: es)
      = applyAdds (if cur.contains e then cur else cur ++ [e]) es := rfl

theorem applyRems_cons (cur : List String) (r : String) (rs : List String) :
    applyRems cur (r :: rs) = applyRems (cur.filter (fun x => x ≠ r)) rs := rfl

theorem applyCalls_titleCall (a : EventArgs) (ev ev' : RepoEvent)
    (h : ev'.title = ev.title) :
    applyCalls ev' (titleCallOf a ev) = { ev' with title := a.eventTitle } := by
  unfold titleCallOf
  by_cases hc : ev.title = a.eventTitle
  · rw [if_neg (fun hne => hne hc)]
    show ev' = _
    rw [← hc, ← h]
  · rw [if_pos hc]
    rfl

theorem applyCalls_timeCall (ev' : RepoEvent) (a : EventArgs) :
    applyCalls ev' [timeCall a] = ev' := by
  show applyCall ev' (timeCall a) = ev'
  unfold timeCall
  split_ifs <;> rfl

theorem applyCalls_descrCall (a : EventArgs) (ev ev' : RepoEvent)
    (h : ev'.description = ev.description) :
    applyCalls ev' (descrCallOf a ev) = { ev' with description := a.description } := by
  unfold descrCallOf
  by_cases hc : ev.description = a.description
  · rw [if_neg (fun hne => hne hc)]
    show ev' = _
    rw [← hc, ← h]
  · rw [if_pos hc]
    rfl

theorem applyCalls_colorCall (a : EventArgs) (ev ev' : RepoEvent)
    (h : ev'.color = ev.color) :
    applyCalls ev' (colorCallOf a ev) = { ev' with color := mathTrunc a.color } := by
  unfold colorCallOf
  by_cases hc : ev.color = mathTrunc a.color
  · rw [if_neg (fun hne => hne hc)]
    show ev' = _
    rw [← hc, ← h]
  · rw [if_pos hc]
    rfl

theorem applyCalls_statusCall (a : EventArgs) (ev ev' : RepoEvent)
    (h : ev'.myStatus = ev.myStatus) :
    applyCalls ev' (statusCallOf a ev) = { ev' with myStatus := a.myStatus } := by
  unfold statusCallOf
  by_cases hc : ev.myStatus = a.myStatus
  · rw [if_neg (fun hne => hne hc)]
    show ev' = _
    rw [← hc, ← h]
  · rw [if_pos hc]
    rfl

theorem applyCalls_locationCall (a : EventArgs) (ev ev' : RepoEvent)
    (h : ev'.location = ev.location) :
    applyCalls ev' (locationCallOf a ev) = { ev' with location := a.location } := by
  unfold locationCallOf
  by_cases hc : ev.location = a.location
  · rw [if_neg (fun hne => hne hc)]
    show ev' = _
    rw [← hc, ← h]
  · rw [if_pos hc]
    rfl

theorem applyCalls_addGuestMap (es : List String) :
    ∀ ev' : RepoEvent, applyCalls ev' (es.map RepoCall.addGuest)
      = { ev' with guestEmails := applyAdds ev'.guestEmails es } := by
  induction es with
  | nil => intro ev'; rfl
  | cons e es ih =>
    intro ev'
    have hstep : applyCalls ev' ((e :: es).map RepoCall.addGuest)
        = applyCalls (applyCall ev' (.addGuest e)) (es.map RepoCall.addGuest) := rfl
    rw [hstep, ih, applyAdds_cons]
    by_cases hc : ev'.guestEmails.contains e
    · simp only [applyCall, if_pos hc]
    · simp only [applyCall, if_neg hc]

theorem applyCalls_removeGuestMap (rs : List String) :
    ∀ ev' : RepoEvent, applyCalls ev' (rs.map RepoCall.removeGuest)
      = { ev' with guestEmails := applyRems ev'.guestEmails rs } := by
  induction rs with
  | nil => intro ev'; rfl
  | cons r rs ih =>
    intro ev'
    have hstep : applyCalls ev' ((r :: rs).map RepoCall.removeGuest)
        = applyCalls (applyCall ev' (.removeGuest r)) (rs.map RepoCall.removeGuest) := rfl
    rw [hstep, ih, applyRems_cons]
    rfl

theorem applyCalls_guestCalls (gs cur : List String) (ev' : RepoEvent)
    (h : ev'.guestEmails = cur) :
    applyCalls ev' (guestCalls gs cur)
      = { ev' with guestEmails := postGuestEmails gs cur } := by
  cases gs with
  | nil =>
    show ev' = _
    rw [show postGuestEmails [] cur = cur from rfl, ← h]
  | cons g rest =>
    by_cases hg : g = ""
    · subst hg
      show ev' = _
      rw [show postGuestEmails ("" :: rest) cur = cur from rfl, ← h]
    · have hcalls0 : guestCalls (g :: rest) cur
          = if g = "" then []
            else guestAddCalls (g :: rest) cur ++ guestRemoveCalls (g :: rest) cur := rfl
      have hcalls : guestCalls (g :: rest) cur
          = guestAddCalls (g :: rest) cur ++ guestRemoveCalls (g :: rest) cur := by
        rw [hcalls0, if_neg hg]
      have hpost0 : postGuestEmails (g :: rest) cur
          = if g = "" then cur
            else applyRems (applyAdds cur (addEmails (g :: rest) cur))
              (remEmails (g :: rest) cur) := rfl
      have hpost : postGuestEmails (g :: rest) cur
          = applyRems (applyAdds cur (addEmails (g :: rest) cur))
              (remEmails (g :: rest) cur) := by
        rw [hpost0, if_neg hg]
      rw [hcalls, hpost, applyCalls_append]
      unfold guestAddCalls guestRemoveCalls
      rw [applyCalls_addGuestMap, applyCalls_removeGuestMap, h]

theorem mem_applyAdds (es : List String) :
    ∀ (cur : List String) (x : String), x ∈ applyAdds cur es ↔ x ∈ cur ∨ x ∈ es := by
  induction es with
  | nil =>
    intro cur x
    simp [applyAdds]
  | cons e es ih =>
    intro cur x
    rw [applyAdds_cons, ih]
    by_cases hc : cur.contains e
    · rw [if_pos hc]
      have he : e ∈ cur := by simpa using hc
      constructor
      · rintro (h | h)
        · exact Or.inl h
        · exact Or.inr (List.mem_cons_of_mem _ h)
      · rintro (h | h)
        · exact Or.inl h
        · rcases List.mem_cons.mp h with rfl | h
          · exact Or.inl he
          · exact Or.inr h
    · rw [if_neg hc]
      simp only [List.mem_append, List.mem_singleton, List.mem_cons]
      tauto

theorem mem_applyRems (rs : List String) :
    ∀ (cur : List String) (x : String), x ∈ applyRems cur rs ↔ x ∈ cur ∧ x ∉ rs := by
  induction rs with
  | nil =>
    intro cur x
    simp [applyRems]
  | cons r rs ih =>
    intro cur x
    rw [applyRems_cons, ih]
    simp only [List.mem_filter, decide_eq_true_eq, List.mem_cons]
    tauto

theorem guestCalls_postGuestEmails (gs cur : List String) :
    guestCalls gs (postGuestEmails gs cur) = [] := by
  cases gs with
  | nil => rfl
  | cons g rest =>
    by_cases hg : g = ""
    · subst hg
      rfl
    · have hpost0 : postGuestEmails (g :: rest) cur
          = if g = "" then cur
            else applyRems (applyAdds cur (addEmails (g :: rest) cur))
              (remEmails (g :: rest) cur) := rfl
      have hpost : postGuestEmails (g :: rest) cur
          = applyRems (applyAdds cur (addEmails (g :: rest) cur))
              (remEmails (g :: rest) cur) := by
        rw [hpost0, if_neg hg]
      have memP : ∀ x, x ∈ postGuestEmails (g :: rest) cur ↔
          (x ∈ cur ∨ x ∈ addEmails (g :: rest) cur)
            ∧ x ∉ remEmails (g :: rest) cur := by
        intro x
        rw [hpost, mem_applyRems, mem_applyAdds]
      have hstrip : ∀ g' ∈ g :: rest, stripStatus g' ∈ postGuestEmails (g :: rest) cur := by
        intro g' hg'
        rw [memP]
        constructor
        · by_cases hcur : stripStatus g' ∈ cur
          · exact Or.inl hcur
          · refine Or.inr ?_
            rw [mem_addEmails]
            exact ⟨hcur, g', hg', rfl⟩
        · rw [mem_remEmails]
          rintro ⟨-, hall⟩
          exact hall g' hg' rfl
      have hadds : addEmails (g :: rest) (postGuestEmails (g :: rest) cur) = [] := by
        unfold addEmails
        rw [List.map_eq_nil_iff, List.filter_eq_nil_iff]
        intro a ha
        simp only [Bool.not_eq_true', Bool.not_eq_false]
        simpa using hstrip a ha
      have hrems : remEmails (g :: rest) (postGuestEmails (g :: rest) cur) = [] := by
        unfold remEmails
        rw [List.filter_eq_nil_iff]
        intro e heP
        rw [memP] at heP
        obtain ⟨hor, hnotrem⟩ := heP
        simp only [Bool.not_eq_true', Bool.not_eq_false, List.any_eq_true]
        rcases hor with hcur | hadd
        · by_contra hnone
          push_neg at hnone
          apply hnotrem
          rw [mem_remEmails]
          refine ⟨hcur, ?_⟩
          intro g' hg' heq
          exact absurd (by simpa using heq) (by simpa using hnone g' hg')
        · rw [mem_addEmails] at hadd
          obtain ⟨-, g', hg', hstr⟩ := hadd
          exact ⟨g', hg', by simpa using hstr⟩
      have hcalls0 : guestCalls (g :: rest) (postGuestEmails (g :: rest) cur)
          = if g = "" then []
            else guestAddCalls (g :: rest) (postGuestEmails (g :: rest) cur)
              ++ guestRemoveCalls (g :: rest) (postGuestEmails (g :: rest) cur) := rfl
      rw [hcalls0, if_neg hg]
      unfold guestAddCalls guestRemoveCalls
      rw [hadds, hrems]
      rfl

theorem applyCalls_updateFieldCalls (a : EventArgs) (ev : RepoEvent) :
    applyCalls ev (updateFieldCalls a ev) =
      { title := a.eventTitle, description := a.description,
        color := mathTrunc a.color,
        guestEmails := postGuestEmails a.guests ev.guestEmails,
        myStatus := a.myStatus, location := a.location } := by
  unfold updateFieldCalls
  rw [applyCalls_append, applyCalls_append, applyCalls_append, applyCalls_append,
    applyCalls_append, applyCalls_append]
  rw [applyCalls_titleCall a ev ev rfl]
  rw [applyCalls_timeCall]
  rw [applyCalls_descrCall a ev]
  rw [applyCalls_colorCall a ev]
  rw [applyCalls_guestCalls a.guests ev.guestEmails]
  rw [applyCalls_statusCall a ev]
  rw [applyCalls_locationCall a ev]
  all_goals rfl

/-- C1 (amended): applying the update path a second time, against the
repository state produced by applying the first run's calls, issues no
title, description, color, guest, status or location mutation — every
diffed field now agrees — but it still issues exactly the one unconditional
time-set call (`setTime` / `setAllDayDate` / `setAllDayDates`), because
`UpdateEvent` writes start/end without comparing them to the fetched
event.  A second run is therefore not write-free. -/
theorem updateSecondRunStillWritesTime (a : EventArgs) (ev : RepoEvent) :
    updateFieldCalls a (applyCalls ev (updateFieldCalls a ev)) = [timeCall a] := by
  rw [applyCalls_updateFieldCalls]
  unfold updateFieldCalls titleCallOf descrCallOf colorCallOf statusCallOf locationCallOf
  simp [guestCalls_postGuestEmails]

/-- Counterexample to C1 as stated: for the record `cexArgs` whose fields
already match the repository event `cexRepoEvent`, the second
reconciliation run still performs a repository write — the unconditional
`setTime` call — so the second run does not perform zero writes. -/
theorem updateSecondRunWriteCounterexample :
    updateFieldCalls cexArgs (applyCalls cexRepoEvent (updateFieldCalls cexArgs cexRepoEvent))
        = [RepoCall.setTime 0 3600000] ∧
    updateFieldCalls cexArgs (applyCalls cexRepoEvent (updateFieldCalls cexArgs cexRepoEvent))
        ≠ [] := by
  constructor <;> decide

/-- C3: for a record that is not flagged for deletion, carries a non-empty
id, and whose id the repository reports as not found, the reconciler
performs the lookup and then falls back to the create path: the calls are
exactly the lookup, one creation call carrying the record's current field
values (with the create path's effective end), and the create path's
`setColor` follow-up — one creation call, no update-path mutation, and no
error. -/
theorem updateNotFoundFallsBackToCreate (r : SheetRow) (repo : String → Option RepoEvent)
    (hdel : r.deleteOpt = false) (hid : r.id ≠ "") (hnf : repo r.id = none) :
    processRecord r repo
      = (RepoCall.getEventById r.id :: CreateEvent (argsOfRow r), none) ∧
    (processRecord r repo).1.countP isCreateCall = 1 ∧
    (processRecord r repo).1.countP isNonCreateMutation = 0 ∧
    (processRecord r repo).2 = none := by
  have hstep : processRecord r repo
      = (RepoCall.getEventById r.id :: CreateEvent (argsOfRow r), none) := by
    simp [processRecord, hdel, hid, hnf, UpdateEvent]
  refine ⟨hstep, ?_, ?_, ?_⟩
  · rw [hstep]
    cases h : (argsOfRow r).isAllDay <;>
      simp [CreateEvent, h, isCreateCall, List.countP_cons, List.countP_nil]
  · rw [hstep]
    cases h : (argsOfRow r).isAllDay <;>
      simp [CreateEvent, h, isNonCreateMutation, List.countP_cons, List.countP_nil]
  · rw [hstep]

/-- Witness: the concrete record `rowWithId` (id `"abc123"`) against an
empty repository is recreated — one lookup followed by the create path's
calls, with no error. -/
theorem updateNotFoundFallsBackToCreateWitness :
    processRecord rowWithId emptyRepo
      = (RepoCall.getEventById "abc123" :: CreateEvent (argsOfRow rowWithId), none) :=
  (updateNotFoundFallsBackToCreate rowWithId emptyRepo rfl (by decide) rfl).1

/-- C4: for every record on the create path (not flagged for deletion, no
id), exactly one creation call is issued — never an error, and the record
is never dropped — and its payload's end is the record's end when
`start < end` and otherwise `start + 1 day` (same time of day, one
calendar day later). -/
theorem createNormalizesEndBeforeStart (r : SheetRow) (repo : String → Option RepoEvent)
    (hdel : r.deleteOpt = false) (hid : r.id = "") :
    processRecord r repo = (CreateEvent (argsOfRow r), none) ∧
    (createPayload (argsOfRow r)).endMs
      = (if r.startTime.ms < r.endTime.ms then r.endTime.ms
         else r.startTime.ms + oneDay) ∧
    (processRecord r repo).1.countP isCreateCall = 1 ∧
    (processRecord r repo).2 = none := by
  have hstep : processRecord r repo = (CreateEvent (argsOfRow r), none) := by
    simp [processRecord, hdel, hid]
  refine ⟨hstep, ?_, ?_, ?_⟩
  · unfold createPayload argsOfRow
    by_cases hlt : r.startTime.ms < r.endTime.ms
    · rw [if_pos hlt, if_pos hlt]
    · rw [if_neg hlt, if_neg hlt]
      rfl
  · rw [hstep]
    cases h : (argsOfRow r).isAllDay <;>
      simp [CreateEvent, h, isCreateCall, List.countP_cons, List.countP_nil]
  · rw [hstep]

/-- Witness: the spec-style record with start 2024-02-01T20:00Z and end
2024-02-01T19:00Z is normalized to an effective end of 2024-02-02T20:00Z
(start plus one day). -/
theorem createNormalizesEndBeforeStartWitness :
    (createPayload (argsOfRow rowNoId)).endMs = 1706904000000 := by
  have h := (createNormalizesEndBeforeStart rowNoId emptyRepo rfl rfl).2.1
  rw [h]
  decide

/-- C10: changing only a record's sendInvites flag changes nothing in the
repository calls of the update path — the flag is consumed at source line
256 solely by a plain property assignment on the local in-memory wrapper
of the fetched event, never by a CalendarApp mutation — whereas on the
create path the flag is carried in the creation payload. -/
theorem sendInvitesUpdateFrame (a : EventArgs) (ev : RepoEvent) (b : Bool) :
    updateFieldCalls { a with sendInvites := b } ev = updateFieldCalls a ev ∧
    (createPayload { a with sendInvites := b }).sendInvites = b := by
  constructor <;> rfl

/-- C6: there is no empty-batch guard.  On an all-blank batch
`GetStartEndDates` does not fail with an `EmptyBatchError` (no such error
exists in the code): `Math.min`/`Math.max` over the empty spread yield
`Infinity`/`-Infinity`, producing the Invalid-Date pair `(none, none)`,
and `CreateOrUpdateEvents` still invokes the re-import
(`AddEventsToSheet`, source line 184) with that invalid window instead of
skipping it — whereupon the `catch` inside `AddEventsToSheet` surfaces an
error dialog to the user via `DisplayError`. -/
theorem emptyBatchStillInvokesReimport :
    GetStartEndDates [] = (none, none) ∧
    CreateOrUpdateEvents [blankRow] emptyRepo
      = { perRecord := [], reimportStart := none, reimportEnd := none } := by
  constructor <;> rfl

/-- C7: with the calendar id property absent — and likewise when it is
the empty string, which names no calendar — both menu entry points crash
with the `TypeError` thrown at `GetSettings` line 22
(`CalendarApp.getCalendarById(CALID).getTimeZone()` on a `null`
calendar) before `CalendarIdExists` reaches its `DisplayError` branch:
no sync pass runs, so no repository call or row-store write is attempted,
but the user-facing configuration error message is never shown either. -/
theorem missingCalendarIdCrashesBeforeConfigError :
    UpdateCalendarEntry none (fun _ => false) [rowJan3] emptyRepo
      = EntryOutcome.crashed JsError.typeError ∧
    FetchCalendarEventsEntry none (fun _ => false)
      = EntryOutcome.crashed JsError.typeError ∧
    UpdateCalendarEntry (some "") (fun _ => false) [rowJan3] emptyRepo
      = EntryOutcome.crashed JsError.typeError := by
  refine ⟨rfl, rfl, rfl⟩

/-- C8: a record flagged for deletion whose id cell is empty is not
validated locally: `DeleteEvent('')` forwards the `getEventById('')`
lookup to the repository, which yields no event, and the member call
`.deleteEvent()` on the `null` result throws a `TypeError`.  No delete
mutation (and no create or update) is performed, but the condition is a
thrown error escaping the unawaited async handler, not a reported local
validation error. -/
theorem deleteWithoutIdForwardsLookupAndThrows :
    processRecord delRow emptyRepo
      = ([RepoCall.getEventById ""], some JsError.typeError) := by
  rfl

/-- C9 (amended): the import mapper writes an eleven-cell row whose last
cell — index 10, the sendInvites column of the twelve-column layout the
reconciler reads back — is the string `'false'`, not boolean false; the
deleteFlag column (index 11) is never written and holds the blank left by
`ClearSheet`.  A freshly imported record is consequently still not
treated as marked for deletion, but only because the blank deleteFlag
cell is falsy; meanwhile its sendInvites cell reads as truthy, the
non-empty string `"false"`. -/
theorem importRowDeleteFlagMisaligned (ev : CalEvent) :
    (AddEventsToSheetRow ev).length = 11 ∧
    readCell (AddEventsToSheetRow ev) 10 = CellValue.str "false" ∧
    readCell (AddEventsToSheetRow ev) 11 = CellValue.str "" ∧
    readDeleteOpt (AddEventsToSheetRow ev) = false ∧
    readSendInvites (AddEventsToSheetRow ev) = true := by
  refine ⟨rfl, rfl, rfl, rfl, rfl⟩

/-- Counterexample to C9 as stated: for a concrete imported event the
written record's deleteFlag cell (index 11 of the layout the reconciler
reads) is the blank string rather than boolean false, the `'false'`
placeholder the mapper does write is a string cell at index 10, and that
string is truthy under JavaScript truthiness. -/
theorem importRowDeleteFlagCounterexample :
    readCell (AddEventsToSheetRow sampleCalEvent) 11 ≠ CellValue.boolV false ∧
    readCell (AddEventsToSheetRow sampleCalEvent) 10 ≠ CellValue.boolV false ∧
    jsTruthy (CellValue.str "false") = true := by
  refine ⟨by decide, by decide, rfl⟩
